import Mathlib

/-!
# Talker node (`src/talker.cpp`)

A shallow embedding of the publisher node of the `beginner_tutorials` package:
the service callback `modifyString`, the rate handling at the top of `main`,
and the `while (ros::ok())` publishing loop.

The node is single threaded.  Everything the program can change is collected in
the record `Node`: the global `stringMsg`, the locals `rate` and `count` of
`main`, and the outputs (standard output, the ROS log, the `chatter` topic and
the transforms handed to the broadcaster).  What the ROS runtime decides (when a
shutdown is requested, which service requests are waiting when `ros::spinOnce()`
runs, what `ros::Time::now()` returns) is given by one `TickEnv` per poll of
`ros::ok()` at the top of the loop.
-/

namespace Talker

/-! ## Data model -/

/-- Severity of a ROS console statement (`ROS_DEBUG_STREAM` ... `ROS_FATAL_STREAM`). -/
inductive Level where
  | debug
  | info
  | warn
  | error
  | fatal
deriving DecidableEq, Repr

/-- One console statement: its severity and its text. -/
structure Event where
  level : Level
  text : String
deriving DecidableEq, Repr

/-- Arguments of `tf::Vector3(x, y, z)`. -/
structure Vector3 where
  x : ℚ
  y : ℚ
  z : ℚ
deriving DecidableEq

/-- Arguments of `tf::Quaternion::setRPY(roll, pitch, yaw)`.  The quaternion itself is
computed by the tf library from these three angles. -/
structure RPY where
  roll : ℚ
  pitch : ℚ
  yaw : ℚ
deriving DecidableEq

/-- Arguments of `tf::StampedTransform(transform, stamp, frame_id, child_frame_id)`. -/
structure StampedTransform where
  origin : Vector3
  rotation : RPY
  stamp : Nat
  frame_id : String
  child_frame_id : String
deriving DecidableEq

/-- Request of the `modify_string` service. -/
structure Request where
  input : String
deriving DecidableEq, Repr

/-- Response of the `modify_string` service. -/
structure Response where
  output : String
deriving DecidableEq, Repr

/-- Program state: the global `stringMsg`, the locals `rate` and `count` of `main`, the
shutdown flag read by `ros::ok()`, and everything the node has written so far (oldest first). -/
structure Node where
  g_ok : Bool
  stringMsg : String
  rate : Int
  count : Int
  cout : String
  log : List Event
  chatter : List String
  tf : List StampedTransform
deriving DecidableEq

/-- What the ROS runtime contributes to one pass through `while (ros::ok())`. -/
structure TickEnv where
  /-- a shutdown (SIGINT, `ros::shutdown()`) was requested before this poll of `ros::ok()` -/
  shutdown : Bool
  /-- value of `ros::Time::now()` in this iteration -/
  now : Nat
  /-- inputs of the service requests that reached the node after the previous
  `ros::spinOnce()` (or, for the first iteration, after `advertiseService`) and before
  this iteration reads `stringMsg`, in order of arrival -/
  arrivedBeforeRead : List String
  /-- inputs of the service requests that reached the node after this iteration read
  `stringMsg` and before its `ros::spinOnce()`, in order of arrival -/
  arrivedAfterRead : List String
deriving DecidableEq

/-! ## Machine integers and text conversion -/

/-- Value of a 32-bit `int` holding `i` modulo `2^32` (two's complement).  Signed overflow is
undefined in C++; this is the result the usual compilers and targets produce. -/
def wrap32 (i : Int) : Int := (i + 2 ^ 31) % 2 ^ 32 - 2 ^ 31

/-- Saturation to the range of a 64-bit `long`, as `strtol` does on overflow. -/
def clampLong (i : Int) : Int :=
  if i < -(2 ^ 63) then -(2 ^ 63) else if 2 ^ 63 - 1 < i then 2 ^ 63 - 1 else i

/-- The `isspace` test of the C locale: space, and `\t \n \v \f \r`. -/
def isspace (c : Char) : Bool := c.toNat = 32 || (9 ≤ c.toNat && c.toNat ≤ 13)

/-- The `isdigit` test: `'0'` to `'9'`. -/
def isdigit (c : Char) : Bool := 48 ≤ c.toNat && c.toNat ≤ 57

/-- Value of the longest prefix of decimal digits, accumulated left to right from `acc`. -/
def digitsValue : Nat → List Char → Nat
  | acc, [] => acc
  | acc, c :: cs => if isdigit c then digitsValue (acc * 10 + (c.toNat - 48)) cs else acc

/-- Base-10 `strtol`: skip white space, read an optional sign, read the digits, saturate. -/
def strtol (s : List Char) : Int :=
  match s.dropWhile isspace with
  | '-' :: t => clampLong (-(digitsValue 0 t : Int))
  | '+' :: t => clampLong (digitsValue 0 t)
  | t => clampLong (digitsValue 0 t)

/-- The C library `atoi`, that is `(int) strtol(nptr, NULL, 10)`.  A value outside the range of
`int` is undefined in the C standard; here it is what glibc returns on an LP64 target (the `long`
saturated by `strtol`, then truncated to 32 bits). -/
def atoi (s : String) : Int := wrap32 (strtol s.data)

/-- Text written by `operator<<` for an `int`: decimal digits, with a leading minus sign
for negative values. -/
def showInt (i : Int) : String :=
  if i < 0 then "-" ++ Nat.repr i.natAbs else Nat.repr i.natAbs

/-- The call `std::string::c_str()` read as a C string: the characters before the first NUL. -/
def c_str (s : String) : String :=
  ⟨s.data.takeWhile (fun c => c.toNat != 0)⟩

/-! ## Output primitives -/

/-- A console statement of the given severity is appended to the log. -/
def rosLog (l : Level) (text : String) (s : Node) : Node :=
  { s with log := s.log ++ [⟨l, text⟩] }

/-- The call `chatter_pub.publish(msg)`. -/
def publish (data : String) (s : Node) : Node :=
  { s with chatter := s.chatter ++ [data] }

/-- The call `br.sendTransform(t)`. -/
def sendTransform (t : StampedTransform) (s : Node) : Node :=
  { s with tf := s.tf ++ [t] }

/-- The call `ros::ok()`. -/
def rosOk (s : Node) : Bool := s.g_ok

/-! ## The program -/

/-- The macro `PI` (`#define PI 3.14`). -/
def PI : ℚ := 3.14

/-- Initial value of the global `stringMsg`. -/
def stringMsg : String := "Base string msg"

/-- The service callback `modifyString` (talker.cpp, lines 52-60): returns the success flag,
the response and the new program state. -/
def modifyString (req : Request) (_resp : Response) (s : Node) : Bool × Response × Node :=
  let s := { s with stringMsg := req.input }
  let resp : Response := { output := req.input }
  let s := rosLog Level.warn "The base output string has been updated" s
  (true, resp, s)

/-- The call `ros::spinOnce()`: the callback is invoked once for every waiting request, in order
of arrival; the responses go back to the callers. -/
def spinOnce : List String → Node → Node
  | [], s => s
  | i :: rest, s => spinOnce rest (modifyString ⟨i⟩ ⟨""⟩ s).2.2

/-- State of the program when `main` starts, after `ros::init`. -/
def initNode : Node :=
  { g_ok := true, stringMsg := stringMsg, rate := 10, count := 0, cout := "",
    log := [], chatter := [], tf := [] }

/-- Rate handling of `main` (talker.cpp, lines 84-100).  `argv` is the argument vector left by
`ros::init`, program name first, and `argc` is its length, so `argc == 2` means exactly one
rate argument. -/
def parseRate (argv : List String) (s : Node) : Node :=
  let s := { s with rate := 10 }
  if argv.length = 2 then
    let s := { s with rate := atoi (argv.getD 1 "") }
    let s := { s with cout := s.cout ++ "rate " ++ showInt s.rate ++ "\n" }
    let s := rosLog Level.debug ("Input rate is: " ++ showInt s.rate) s
    if s.rate < 0 then
      let s := { s with rate := 1 }
      rosLog Level.error "Invalid rate value" s
    else s
  else
    rosLog Level.warn "Using default publishing rate" s

/-- Body of the `while` loop of `main` (talker.cpp, lines 145-175). -/
def loopBody (e : TickEnv) (s : Node) : Node :=
  let data := s.stringMsg ++ showInt s.count
  let s := rosLog Level.info (c_str data) s
  let s := rosLog Level.debug ("Input rate is: " ++ showInt s.rate) s
  let s := publish data s
  let s := sendTransform
    { origin := ⟨1.0, 2.0, 3.0⟩, rotation := ⟨PI, PI / 2, 2⟩, stamp := e.now,
      frame_id := "world", child_frame_id := "talk" } s
  let s := spinOnce (e.arrivedBeforeRead ++ e.arrivedAfterRead) s
  { s with count := wrap32 (s.count + 1) }

/-- The shutdown flag is latched: a request for shutdown clears it and nothing sets it again. -/
def deliverShutdown (e : TickEnv) (s : Node) : Node :=
  if e.shutdown then { s with g_ok := false } else s

/-- The loop `while (ros::ok()) ...` (talker.cpp, lines 141-176), one `TickEnv` per poll.
The result is `none` when the polls recorded in the environment are used up and the loop is
still running. -/
def whileLoop : List TickEnv → Node → Option Node
  | [], _ => none
  | e :: es, s =>
    let s := deliverShutdown e s
    if rosOk s then whileLoop es (loopBody e s) else some s

/-- The function `main` (talker.cpp, lines 65-186): exit code and final program state. -/
def main (argv : List String) (env : List TickEnv) : Option (Int × Node) :=
  let s := parseRate argv initNode
  let s := rosLog Level.info "Setting publishing rate" s
  let s := { s with count := 0 }
  match whileLoop env s with
  | none => none
  | some s =>
    let s := if !rosOk s then rosLog Level.fatal "ROS node is not running" s else s
    some (0, s)

/-! ## Vocabulary of the statements -/

/-- Number of events of a given severity in a log. -/
def countLevel (l : Level) (log : List Event) : Nat :=
  (log.filter (fun e => e.level = l)).length

/-- Inputs of all requests served by the `ros::spinOnce()` calls of the given iterations. -/
def served (es : List TickEnv) : List String :=
  es.flatMap (fun e => e.arrivedBeforeRead ++ e.arrivedAfterRead)

/-- Input of the last request in a list of served requests, or the initial text. -/
def lastInput (inputs : List String) : String :=
  inputs.getLast?.getD stringMsg

/-- A tick with no shutdown request, no service request, at time `0`. -/
def quietTick : TickEnv :=
  { shutdown := false, now := 0, arrivedBeforeRead := [], arrivedAfterRead := [] }

/-- The poll at which a shutdown request is seen. -/
def stopTick : TickEnv :=
  { shutdown := true, now := 0, arrivedBeforeRead := [], arrivedAfterRead := [] }

/-- The loop body run once for each of the given iterations, in order. -/
def ticks (es : List TickEnv) (s : Node) : Node :=
  es.foldl (fun s e => loopBody e s) s

/-- The transform sent in an iteration whose clock reads `now`. -/
def sentTransform (now : Nat) : StampedTransform :=
  { origin := ⟨1, 2, 3⟩, rotation := ⟨3.14, 1.57, 2⟩, stamp := now,
    frame_id := "world", child_frame_id := "talk" }

/-- State of `main` when the loop is entered. -/
def startNode (argv : List String) : Node :=
  { rosLog Level.info "Setting publishing rate" (parseRate argv initNode) with count := 0 }

/-- State of `main` when it returns after the loop body ran for the iterations `pre`. -/
def exitNode (argv : List String) (pre : List TickEnv) : Node :=
  rosLog Level.fatal "ROS node is not running" { ticks pre (startNode argv) with g_ok := false }

/-! ## Lemmas on the service callback and the loop body -/

theorem spinOnce_stringMsg (ins : List String) (s : Node) :
    (spinOnce ins s).stringMsg = ins.getLast?.getD s.stringMsg := by
  induction ins generalizing s with
  | nil => rfl
  | cons i rest ih =>
    rw [spinOnce, ih]
    cases rest with
    | nil => simp [modifyString, rosLog]
    | cons j r =>
      rw [List.getLast?_cons_cons]
      cases h : (j :: r).getLast? with
      | none => simp at h
      | some x => rfl

theorem spinOnce_frame (ins : List String) (s : Node) :
    (spinOnce ins s).g_ok = s.g_ok ∧ (spinOnce ins s).rate = s.rate ∧
    (spinOnce ins s).count = s.count ∧ (spinOnce ins s).cout = s.cout ∧
    (spinOnce ins s).chatter = s.chatter ∧ (spinOnce ins s).tf = s.tf := by
  induction ins generalizing s with
  | nil => simp [spinOnce]
  | cons i rest ih =>
    rw [spinOnce]
    have h := ih (modifyString ⟨i⟩ ⟨""⟩ s).2.2
    simpa [modifyString, rosLog] using h

theorem spinOnce_countLevel (l : Level) (hl : l ≠ Level.warn) (ins : List String) (s : Node) :
    countLevel l (spinOnce ins s).log = countLevel l s.log := by
  induction ins generalizing s with
  | nil => rfl
  | cons i rest ih =>
    rw [spinOnce, ih]
    simp [modifyString, rosLog, countLevel, List.filter_append, List.filter_cons, Ne.symm hl]

theorem getLast?_getD_append (a b : List String) (d : String) :
    (a ++ b).getLast?.getD d = b.getLast?.getD (a.getLast?.getD d) := by
  cases b using List.reverseRecOn with
  | nil => simp
  | append_singleton l x => simp [← List.append_assoc]

theorem sentTransform_eq (now : Nat) :
    ({ origin := ⟨1.0, 2.0, 3.0⟩, rotation := ⟨PI, PI / 2, 2⟩, stamp := now,
       frame_id := "world", child_frame_id := "talk" } : StampedTransform) = sentTransform now := by
  simp only [sentTransform, PI]
  norm_num

theorem loopBody_fields (e : TickEnv) (s : Node) :
    (loopBody e s).g_ok = s.g_ok ∧ (loopBody e s).rate = s.rate ∧
    (loopBody e s).cout = s.cout ∧
    (loopBody e s).count = wrap32 (s.count + 1) ∧
    (loopBody e s).stringMsg
      = (e.arrivedBeforeRead ++ e.arrivedAfterRead).getLast?.getD s.stringMsg ∧
    (loopBody e s).chatter = s.chatter ++ [s.stringMsg ++ showInt s.count] ∧
    (loopBody e s).tf = s.tf ++ [sentTransform e.now] := by
  simp only [loopBody, sentTransform_eq]
  refine ⟨?_, ?_, ?_, ?_, ?_, ?_, ?_⟩
  · rw [(spinOnce_frame _ _).1]; rfl
  · rw [(spinOnce_frame _ _).2.1]; rfl
  · rw [(spinOnce_frame _ _).2.2.2.1]; rfl
  · rw [(spinOnce_frame _ _).2.2.1]; rfl
  · rw [spinOnce_stringMsg]; rfl
  · rw [(spinOnce_frame _ _).2.2.2.2.1]; rfl
  · rw [(spinOnce_frame _ _).2.2.2.2.2]; rfl

theorem loopBody_countLevel (l : Level) (hw : l ≠ Level.warn) (hi : l ≠ Level.info)
    (hd : l ≠ Level.debug) (e : TickEnv) (s : Node) :
    countLevel l (loopBody e s).log = countLevel l s.log := by
  simp only [loopBody]
  rw [spinOnce_countLevel l hw]
  simp [sendTransform, publish, rosLog, countLevel, List.filter_append, List.filter_cons,
    Ne.symm hi, Ne.symm hd]

theorem wrap32_zero : wrap32 0 = 0 := by decide

theorem wrap32_succ (n : Int) : wrap32 (wrap32 n + 1) = wrap32 (n + 1) := by
  unfold wrap32
  omega

theorem wrap32_small (k : Nat) (h : k < 2 ^ 31) : wrap32 (k : Int) = k := by
  unfold wrap32
  omega

theorem ticks_snoc (pre : List TickEnv) (e : TickEnv) (s : Node) :
    ticks (pre ++ [e]) s = loopBody e (ticks pre s) := by
  simp [ticks, List.foldl_append]

theorem served_snoc (pre : List TickEnv) (e : TickEnv) :
    served (pre ++ [e]) = served pre ++ (e.arrivedBeforeRead ++ e.arrivedAfterRead) := by
  simp [served, List.flatMap_append]

/-- The state after the loop body has run for the iterations `pre`, field by field. -/
theorem ticks_spec (s : Node) (h0 : s.count = 0) (pre : List TickEnv) :
    (ticks pre s).g_ok = s.g_ok ∧ (ticks pre s).rate = s.rate ∧
    (ticks pre s).cout = s.cout ∧
    (ticks pre s).count = wrap32 pre.length ∧
    (ticks pre s).stringMsg = (served pre).getLast?.getD s.stringMsg ∧
    (ticks pre s).chatter = s.chatter ++ (List.range pre.length).map
      (fun k => (served (pre.take k)).getLast?.getD s.stringMsg ++ showInt (wrap32 k)) ∧
    (ticks pre s).tf = s.tf ++ pre.map (fun e => sentTransform e.now) ∧
    countLevel Level.fatal (ticks pre s).log = countLevel Level.fatal s.log ∧
    countLevel Level.error (ticks pre s).log = countLevel Level.error s.log := by
  induction pre using List.reverseRecOn with
  | nil => simp [ticks, served, h0, wrap32_zero]
  | append_singleton pre e ih =>
    obtain ⟨h1, h2, h3, h4, h5, h6, h7, h8, h9⟩ := ih
    obtain ⟨b1, b2, b3, b4, b5, b6, b7⟩ := loopBody_fields e (ticks pre s)
    rw [ticks_snoc]
    refine ⟨by rw [b1, h1], by rw [b2, h2], by rw [b3, h3], ?_, ?_, ?_, ?_, ?_, ?_⟩
    · rw [b4, h4, wrap32_succ]; simp
    · rw [b5, h5, served_snoc]
      simp only [getLast?_getD_append]
    · rw [b6, h6, h5, h4]
      simp only [List.length_append, List.length_singleton, List.range_succ, List.map_append,
        List.map_singleton, List.append_assoc, List.take_left]
      have hmap : ∀ k ∈ List.range pre.length,
          (served (List.take k (pre ++ [e]))).getLast?.getD s.stringMsg ++ showInt (wrap32 ↑k)
          = (served (List.take k pre)).getLast?.getD s.stringMsg ++ showInt (wrap32 ↑k) := by
        intro k hk
        rw [List.take_append_of_le_length (le_of_lt (List.mem_range.mp hk))]
      rw [List.map_congr_left hmap]
    · rw [b7, h7]; simp
    · rw [loopBody_countLevel _ (by decide) (by decide) (by decide), h8]
    · rw [loopBody_countLevel _ (by decide) (by decide) (by decide), h9]

theorem whileLoop_stop (pre : List TickEnv) (stop : TickEnv) (post : List TickEnv) (s : Node)
    (hs : s.g_ok = true) (hpre : ∀ e ∈ pre, e.shutdown = false) (hstop : stop.shutdown = true) :
    whileLoop (pre ++ stop :: post) s = some { ticks pre s with g_ok := false } := by
  induction pre generalizing s with
  | nil => simp [whileLoop, deliverShutdown, hstop, rosOk, ticks]
  | cons e es ih =>
    have he : e.shutdown = false := hpre e (List.mem_cons_self _ _)
    have hes : ∀ x ∈ es, x.shutdown = false := fun x hx => hpre x (List.mem_cons_of_mem _ hx)
    have hb : (loopBody e s).g_ok = true := by rw [(loopBody_fields e s).1, hs]
    have hstep : whileLoop (e :: es ++ stop :: post) s
        = whileLoop (es ++ stop :: post) (loopBody e s) := by
      simp [whileLoop, deliverShutdown, he, rosOk, hs]
    rw [hstep, ih (loopBody e s) hb hes]
    rfl

theorem whileLoop_running (pre : List TickEnv) (s : Node)
    (hs : s.g_ok = true) (hpre : ∀ e ∈ pre, e.shutdown = false) :
    whileLoop pre s = none := by
  induction pre generalizing s with
  | nil => rfl
  | cons e es ih =>
    have he : e.shutdown = false := hpre e (List.mem_cons_self _ _)
    have hes : ∀ x ∈ es, x.shutdown = false := fun x hx => hpre x (List.mem_cons_of_mem _ hx)
    have hb : (loopBody e s).g_ok = true := by rw [(loopBody_fields e s).1, hs]
    have hstep : whileLoop (e :: es) s = whileLoop es (loopBody e s) := by
      simp [whileLoop, deliverShutdown, he, rosOk, hs]
    rw [hstep, ih (loopBody e s) hb hes]

theorem parseRate_frame (argv : List String) (s : Node) :
    (parseRate argv s).g_ok = s.g_ok ∧ (parseRate argv s).stringMsg = s.stringMsg ∧
    (parseRate argv s).chatter = s.chatter ∧ (parseRate argv s).tf = s.tf := by
  unfold parseRate
  simp only [rosLog]
  split_ifs <;> simp

theorem startNode_fields (argv : List String) :
    (startNode argv).g_ok = true ∧ (startNode argv).stringMsg = stringMsg ∧
    (startNode argv).count = 0 ∧ (startNode argv).chatter = [] ∧ (startNode argv).tf = [] ∧
    (startNode argv).rate = (parseRate argv initNode).rate ∧
    countLevel Level.fatal (startNode argv).log = 0 := by
  obtain ⟨h1, h2, h3, h4⟩ := parseRate_frame argv initNode
  refine ⟨?_, ?_, rfl, ?_, ?_, rfl, ?_⟩
  · simpa [startNode, rosLog] using h1
  · simpa [startNode, rosLog] using h2
  · simpa [startNode, rosLog] using h3
  · simpa [startNode, rosLog] using h4
  · simp only [startNode, parseRate, rosLog, initNode]
    split_ifs <;> simp [countLevel, List.filter_append, List.filter_cons]

/-- A run in which the shutdown is seen at the poll after the iterations `pre` returns
exit code `0` in the state `exitNode argv pre`, whatever the environment holds afterwards. -/
theorem main_stop (argv : List String) (pre : List TickEnv) (stop : TickEnv)
    (post : List TickEnv) (hpre : ∀ e ∈ pre, e.shutdown = false)
    (hstop : stop.shutdown = true) :
    main argv (pre ++ stop :: post) = some (0, exitNode argv pre) := by
  have h := whileLoop_stop pre stop post (startNode argv) (startNode_fields argv).1 hpre hstop
  unfold main
  simp only [startNode] at h
  simp only [h]
  simp [exitNode, startNode, rosOk]

/-- Fields of the exit state. -/
theorem exitNode_fields (argv : List String) (pre : List TickEnv) :
    (exitNode argv pre).g_ok = false ∧
    (exitNode argv pre).count = wrap32 pre.length ∧
    (exitNode argv pre).stringMsg = lastInput (served pre) ∧
    (exitNode argv pre).chatter = (List.range pre.length).map
      (fun k => lastInput (served (pre.take k)) ++ showInt (wrap32 k)) ∧
    (exitNode argv pre).tf = pre.map (fun e => sentTransform e.now) ∧
    countLevel Level.fatal (exitNode argv pre).log = 1 := by
  obtain ⟨s1, s2, s3, s4, s5, _, s7⟩ := startNode_fields argv
  obtain ⟨_, _, _, h4, h5, h6, h7, h8, _⟩ := ticks_spec (startNode argv) s3 pre
  refine ⟨rfl, ?_, ?_, ?_, ?_, ?_⟩
  · simpa [exitNode, rosLog] using h4
  · simpa [exitNode, rosLog, lastInput, s2] using h5
  · simpa [exitNode, rosLog, lastInput, s2, s4] using h6
  · simpa [exitNode, rosLog, s5] using h7
  · simp only [exitNode, rosLog, countLevel, List.filter_append, List.length_append]
    simp only [countLevel] at h8 s7
    rw [h8, s7]
    simp

theorem exitNode_chatter_get (argv : List String) (pre : List TickEnv) (k : Nat)
    (hk : k < pre.length) :
    (exitNode argv pre).chatter.get? k
      = some (lastInput (served (pre.take k)) ++ showInt (wrap32 k)) := by
  rw [(exitNode_fields argv pre).2.2.2.1]
  simp [List.getElem?_map, List.getElem?_range hk]

/-! ## `atoi` reads back what `operator<<` writes -/

theorem digitChar_spec (k : Nat) (h : k < 10) :
    isdigit (Nat.digitChar k) = true ∧ (Nat.digitChar k).toNat - 48 = k := by
  interval_cases k <;> exact ⟨by decide, by decide⟩

theorem toDigitsCore_acc (fuel n : Nat) (ds : List Char) :
    Nat.toDigitsCore 10 fuel n ds = Nat.toDigitsCore 10 fuel n [] ++ ds := by
  induction fuel generalizing n ds with
  | zero => simp [Nat.toDigitsCore]
  | succ f ih =>
    simp only [Nat.toDigitsCore]
    split_ifs with h
    · simp
    · rw [ih (n / 10) (Nat.digitChar (n % 10) :: ds), ih (n / 10) [Nat.digitChar (n % 10)]]
      simp

theorem digitsValue_append (l : List Char) (hl : ∀ c ∈ l, isdigit c = true) (acc : Nat)
    (rest : List Char) :
    digitsValue acc (l ++ rest) = digitsValue (digitsValue acc l) rest := by
  induction l generalizing acc with
  | nil => rfl
  | cons c cs ih =>
    have hc : isdigit c = true := hl c (List.mem_cons_self _ _)
    have hcs : ∀ x ∈ cs, isdigit x = true := fun x hx => hl x (List.mem_cons_of_mem _ hx)
    simp only [List.cons_append, digitsValue, hc, if_true]
    exact ih hcs _

theorem toDigitsCore_spec (fuel n : Nat) (h : n < fuel) :
    (∀ c ∈ Nat.toDigitsCore 10 fuel n [], isdigit c = true) ∧
    Nat.toDigitsCore 10 fuel n [] ≠ [] ∧
    digitsValue 0 (Nat.toDigitsCore 10 fuel n []) = n := by
  induction fuel generalizing n with
  | zero => omega
  | succ f ih =>
    have hd := digitChar_spec (n % 10) (Nat.mod_lt _ (by decide))
    simp only [Nat.toDigitsCore]
    split_ifs with h0
    · refine ⟨by simpa using hd.1, by simp, ?_⟩
      simp only [digitsValue, hd.1, if_true, hd.2]
      omega
    · have hlt : n / 10 < f := by omega
      obtain ⟨i1, _, i3⟩ := ih (n / 10) hlt
      rw [toDigitsCore_acc]
      refine ⟨?_, by simp, ?_⟩
      · intro c hc
        rcases List.mem_append.mp hc with hc | hc
        · exact i1 c hc
        · rw [List.mem_singleton.mp hc]; exact hd.1
      · rw [digitsValue_append _ i1, i3]
        simp only [digitsValue, hd.1, if_true, hd.2]
        omega

theorem digitsValue_repr (n : Nat) : digitsValue 0 (Nat.repr n).data = n := by
  simpa [Nat.repr, Nat.toDigits, List.asString] using (toDigitsCore_spec (n + 1) n (by omega)).2.2

theorem repr_injective (m n : Nat) (h : Nat.repr m = Nat.repr n) : m = n := by
  rw [← digitsValue_repr m, ← digitsValue_repr n, h]

/-- No value of a 32-bit `int` is written as the decimal form of `2^31`. -/
theorem showInt_ne_two_pow_31 (c : Int) (hhi : c < 2 ^ 31) : showInt c ≠ Nat.repr (2 ^ 31) := by
  unfold showInt
  split_ifs with h
  · intro heq
    have hd := congrArg String.data heq
    have hr : (Nat.repr (2 ^ 31)).data = ['2', '1', '4', '7', '4', '8', '3', '6', '4', '8'] := by
      decide
    rw [String.data_append, hr] at hd
    have hm : ("-" : String).data = ['-'] := rfl
    rw [hm] at hd
    exact absurd (List.cons.inj hd).1 (by decide)
  · intro heq
    have := repr_injective _ _ heq
    omega

theorem strtol_digit (c : Char) (t : List Char) (hc : isdigit c = true) :
    strtol (c :: t) = clampLong (digitsValue 0 (c :: t)) := by
  have hsp : isspace c = false := by
    simp only [isdigit, Bool.and_eq_true, decide_eq_true_eq] at hc
    simp only [isspace, Bool.or_eq_false_iff, Bool.and_eq_false_iff, decide_eq_false_iff_not]
    omega
  have hminus : c ≠ '-' := by
    rintro rfl
    exact absurd hc (by decide)
  have hplus : c ≠ '+' := by
    rintro rfl
    exact absurd hc (by decide)
  unfold strtol
  rw [List.dropWhile_cons_of_neg (by simp [hsp])]
  split
  · next h => exact absurd (List.cons.inj h).1 hminus
  · next h => exact absurd (List.cons.inj h).1 hplus
  · rfl

theorem atoi_repr (n : Nat) (h : n < 2 ^ 31) : atoi (Nat.repr n) = n := by
  obtain ⟨h1, h2, h3⟩ := toDigitsCore_spec (n + 1) n (by omega)
  have hdata : (Nat.repr n).data = Nat.toDigitsCore 10 (n + 1) n [] := by
    simp [Nat.repr, Nat.toDigits, List.asString]
  unfold atoi
  rw [hdata]
  cases hl : Nat.toDigitsCore 10 (n + 1) n [] with
  | nil => exact absurd hl h2
  | cons c t =>
    rw [hl] at h1 h3
    rw [strtol_digit c t (h1 c (List.mem_cons_self _ _)), h3]
    unfold clampLong wrap32
    split_ifs <;> omega

theorem served_replicate_quiet (n : Nat) : served (List.replicate n quietTick) = [] := by
  induction n with
  | zero => rfl
  | succ n ih =>
    rw [List.replicate_succ, served, List.flatMap_cons]
    exact ih

/-- In a run of `n` iterations without service requests, iteration `k` publishes the initial
text followed by the value of the 32-bit counter. -/
theorem quiet_run (n k : Nat) (hk : k < n) :
    (main ["talker"] (List.replicate n quietTick ++ [stopTick])).map
      (fun r => r.2.chatter.get? k) = some (some (stringMsg ++ showInt (wrap32 k))) := by
  have hpre : ∀ e ∈ List.replicate n quietTick, e.shutdown = false := by
    intro e he
    rw [List.eq_of_mem_replicate he]
    rfl
  rw [main_stop ["talker"] (List.replicate n quietTick) stopTick [] hpre rfl]
  simp only [Option.map_some']
  rw [exitNode_chatter_get _ _ k (by simpa using hk), List.take_replicate,
    served_replicate_quiet]
  rfl

/-! ## The claims -/

/-- C1: for every prior state and every request input, `modifyString` returns `true`, leaves
`stringMsg` equal to the input, sets the response output to the input and appends exactly one
warning-level event to the log; a second call with the same input returns `true` again, answers
with the input again and leaves `stringMsg` as the first call left it. -/
theorem modifyString_echo (req : Request) (resp resp2 : Response) (s : Node) :
    (modifyString req resp s).1 = true ∧
    (modifyString req resp s).2.1.output = req.input ∧
    (modifyString req resp s).2.2.stringMsg = req.input ∧
    (modifyString req resp s).2.2.log
      = s.log ++ [⟨Level.warn, "The base output string has been updated"⟩] ∧
    countLevel Level.warn (modifyString req resp s).2.2.log = countLevel Level.warn s.log + 1 ∧
    (modifyString req resp2 (modifyString req resp s).2.2).1 = true ∧
    (modifyString req resp2 (modifyString req resp s).2.2).2.1.output = req.input ∧
    (modifyString req resp2 (modifyString req resp s).2.2).2.2.stringMsg
      = (modifyString req resp s).2.2.stringMsg := by
  simp [modifyString, rosLog, countLevel, List.filter_append]

/-- C2: in a run whose iterations are `pre` and whose shutdown is seen at the next poll, the
message published by iteration `N` is the input of the last request served by the
`ros::spinOnce()` of an earlier iteration (the initial text when there is none) followed by the
counter; this is also the value of `stringMsg` when the run stops at the poll of iteration `N`.
A request served by the `ros::spinOnce()` of iteration `N` therefore does not change the message
of iteration `N`, and the last one served there is the text of iteration `N + 1`. -/
theorem read_sees_last_served (argv : List String) (pre : List TickEnv) (stop : TickEnv)
    (post : List TickEnv) (N : Nat) (hpre : ∀ e ∈ pre, e.shutdown = false)
    (hstop : stop.shutdown = true) (hN : N < pre.length) :
    (∃ s, main argv (pre ++ stop :: post) = some (0, s) ∧
      s.chatter.get? N = some (lastInput (served (pre.take N)) ++ showInt (wrap32 N)) ∧
      (∀ e r, pre.get? N = some e →
        (e.arrivedBeforeRead ++ e.arrivedAfterRead).getLast? = some r → N + 1 < pre.length →
        s.chatter.get? (N + 1) = some (r ++ showInt (wrap32 (N + 1 : Nat))))) ∧
    (∃ s, main argv (pre.take N ++ stop :: post) = some (0, s) ∧
      s.stringMsg = lastInput (served (pre.take N))) := by
  refine ⟨⟨exitNode argv pre, main_stop argv pre stop post hpre hstop,
    exitNode_chatter_get argv pre N hN, ?_⟩,
    ⟨exitNode argv (pre.take N), main_stop argv _ stop post
      (fun e he => hpre e (List.mem_of_mem_take he)) hstop, (exitNode_fields argv _).2.2.1⟩⟩
  intro e r he hr hN1
  rw [exitNode_chatter_get argv pre (N + 1) hN1]
  have hget : pre[N] = e := by
    have h := List.getElem?_eq_getElem hN
    simp only [List.get?_eq_getElem?] at he
    rw [h] at he
    exact Option.some.inj he
  have htake : pre.take (N + 1) = pre.take N ++ [e] := by
    rw [List.take_succ, List.getElem?_eq_getElem hN, hget]
    rfl
  rw [htake, served_snoc]
  simp only [lastInput]
  rw [List.getLast?_append, hr]
  rfl

/-- Witness of C2: two iterations, the first of which serves the request `Hello`. -/
theorem read_sees_last_served_witness :
    (∃ s, main ["talker"] ([⟨false, 0, [], ["Hello"]⟩, quietTick] ++ stopTick :: [])
        = some (0, s) ∧
      s.chatter.get? 0
        = some (lastInput (served (List.take 0 [⟨false, 0, [], ["Hello"]⟩, quietTick]))
            ++ showInt (wrap32 (0 : Nat))) ∧
      (∀ e r, [(⟨false, 0, [], ["Hello"]⟩ : TickEnv), quietTick].get? 0 = some e →
        (e.arrivedBeforeRead ++ e.arrivedAfterRead).getLast? = some r →
        0 + 1 < [(⟨false, 0, [], ["Hello"]⟩ : TickEnv), quietTick].length →
        s.chatter.get? (0 + 1) = some (r ++ showInt (wrap32 (0 + 1 : Nat))))) ∧
    (∃ s, main ["talker"] (List.take 0 [⟨false, 0, [], ["Hello"]⟩, quietTick] ++ stopTick :: [])
        = some (0, s) ∧
      s.stringMsg = lastInput (served (List.take 0 [⟨false, 0, [], ["Hello"]⟩, quietTick]))) :=
  read_sees_last_served ["talker"] [⟨false, 0, [], ["Hello"]⟩, quietTick] stopTick [] 0
    (by decide) (by decide) (by decide)

/-- C3, as stated, fails: `count` is a 32-bit `int`, so after `2^31` iterations without any
service request the iteration of index `2^31` publishes the initial text followed by
`-2147483648`, not followed by `2147483648` (by `showInt_ne_two_pow_31` no value of an `int`
is written that way). -/
theorem counter_wraps_at_two_pow_31 :
    (main ["talker"] (List.replicate (2 ^ 31 + 1) quietTick ++ [stopTick])).map
      (fun r => r.2.chatter.get? (2 ^ 31)) = some (some "Base string msg-2147483648") ∧
    "Base string msg-2147483648" ≠ "Base string msg" ++ Nat.repr (2 ^ 31) := by
  refine ⟨?_, by decide⟩
  rw [quiet_run (2 ^ 31 + 1) (2 ^ 31) (Nat.lt_succ_self _)]
  decide

/-- C3, amended: for every iteration index `k < 2^31`, iteration `k` publishes the text it reads
(the input of the last request served before it, or the initial text) followed by the decimal
form of `k`; with no request served before it this is `Base string msg` followed by `k`; and
after fewer than `2^31` iterations the counter equals the number of iterations, whatever
requests were served. -/
theorem tick_publishes_counter (argv : List String) (pre : List TickEnv) (stop : TickEnv)
    (post : List TickEnv) (k : Nat) (hpre : ∀ e ∈ pre, e.shutdown = false)
    (hstop : stop.shutdown = true) (hk : k < pre.length) (h31 : k < 2 ^ 31) :
    ∃ s, main argv (pre ++ stop :: post) = some (0, s) ∧
      s.chatter.get? k = some (lastInput (served (pre.take k)) ++ Nat.repr k) ∧
      (served (pre.take k) = [] → s.chatter.get? k = some ("Base string msg" ++ Nat.repr k)) ∧
      (pre.length < 2 ^ 31 → s.count = pre.length) := by
  have hshow : showInt (wrap32 (k : Int)) = Nat.repr k := by
    rw [wrap32_small k h31]
    simp [showInt]
  have hget := exitNode_chatter_get argv pre k hk
  rw [hshow] at hget
  refine ⟨exitNode argv pre, main_stop argv pre stop post hpre hstop, hget, ?_, ?_⟩
  · intro hnone
    rw [hget, hnone]
    rfl
  · intro hlen
    rw [(exitNode_fields argv pre).2.1, wrap32_small _ hlen]

/-- Witness of C3 (amended): two iterations without requests. -/
theorem tick_publishes_counter_witness :
    ∃ s, main ["talker"] ([quietTick, quietTick] ++ stopTick :: []) = some (0, s) ∧
      s.chatter.get? 1
        = some (lastInput (served (List.take 1 [quietTick, quietTick])) ++ Nat.repr 1) ∧
      (served (List.take 1 [quietTick, quietTick]) = [] →
        s.chatter.get? 1 = some ("Base string msg" ++ Nat.repr 1)) ∧
      ([quietTick, quietTick].length < 2 ^ 31 → s.count = ([quietTick, quietTick].length : Nat)) :=
  tick_publishes_counter ["talker"] [quietTick, quietTick] stopTick [] 1
    (by decide) (by decide) (by decide) (by decide)

/-- C4 fails on the code at the rate argument `0`: the guard is `rate < 0`, so the rate stays `0`
and no error-level event is logged. -/
theorem zero_rate_not_coerced :
    (parseRate ["talker", "0"] initNode).rate = 0 ∧
    countLevel Level.error (parseRate ["talker", "0"] initNode).log = 0 ∧
    (main ["talker", "0"] [stopTick]).map (fun r => r.2.rate) = some 0 := by
  decide

/-- C5: when `argc` is not `2`, the rate is the default `10`, exactly one event is logged, it is
of warning level, and no error-level event is logged, whatever the arguments contain. -/
theorem default_rate (argv : List String) (s : Node) (h : argv.length ≠ 2) :
    (parseRate argv s).rate = 10 ∧
    (parseRate argv s).log = s.log ++ [⟨Level.warn, "Using default publishing rate"⟩] ∧
    countLevel Level.warn (parseRate argv s).log = countLevel Level.warn s.log + 1 ∧
    countLevel Level.error (parseRate argv s).log = countLevel Level.error s.log := by
  simp [parseRate, h, rosLog, countLevel, List.filter_append]

/-- Witness of C5: three rate arguments. -/
theorem default_rate_witness :
    ["talker", "-5", "0", "7"].length ≠ 2 ∧
    (parseRate ["talker", "-5", "0", "7"] initNode).rate = 10 ∧
    (parseRate ["talker", "-5", "0", "7"] initNode).log
      = initNode.log ++ [⟨Level.warn, "Using default publishing rate"⟩] ∧
    countLevel Level.warn (parseRate ["talker", "-5", "0", "7"] initNode).log
      = countLevel Level.warn initNode.log + 1 ∧
    countLevel Level.error (parseRate ["talker", "-5", "0", "7"] initNode).log
      = countLevel Level.error initNode.log :=
  ⟨by decide, default_rate ["talker", "-5", "0", "7"] initNode (by decide)⟩

/-- C6: for every `n` with `0 < n < 2^31`, the single rate argument that is the decimal form of
`n` gives the rate `n`; the only event logged is of debug level, so no error-level and no
warning-level event is logged. -/
theorem positive_rate (prog : String) (n : Nat) (s : Node) (h0 : 0 < n) (h31 : n < 2 ^ 31) :
    (parseRate [prog, Nat.repr n] s).rate = n ∧
    (parseRate [prog, Nat.repr n] s).log
      = s.log ++ [⟨Level.debug, "Input rate is: " ++ showInt n⟩] ∧
    countLevel Level.error (parseRate [prog, Nat.repr n] s).log = countLevel Level.error s.log ∧
    countLevel Level.warn (parseRate [prog, Nat.repr n] s).log = countLevel Level.warn s.log := by
  have hneg : ¬ ((n : Int) < 0) := by omega
  simp [parseRate, atoi_repr n h31, hneg, rosLog, countLevel, List.filter_append]

/-- Witness of C6: the rate argument `25`. -/
theorem positive_rate_witness :
    0 < 25 ∧ 25 < 2 ^ 31 ∧
    (parseRate ["talker", Nat.repr 25] initNode).rate = (25 : Nat) ∧
    (parseRate ["talker", Nat.repr 25] initNode).log
      = initNode.log ++ [⟨Level.debug, "Input rate is: " ++ showInt (25 : Nat)⟩] ∧
    countLevel Level.error (parseRate ["talker", Nat.repr 25] initNode).log
      = countLevel Level.error initNode.log ∧
    countLevel Level.warn (parseRate ["talker", Nat.repr 25] initNode).log
      = countLevel Level.warn initNode.log :=
  ⟨by decide, by decide, positive_rate "talker" 25 initNode (by decide) (by decide)⟩

/-- For a single rate argument that parses to a negative value the rate becomes `1` and one
error-level event is logged (the branch of `main` guarded by `rate < 0`). -/
theorem negative_rate_coerced (prog arg : String) (s : Node) (hneg : atoi arg < 0) :
    (parseRate [prog, arg] s).rate = 1 ∧
    countLevel Level.error (parseRate [prog, arg] s).log = countLevel Level.error s.log + 1 := by
  simp [parseRate, hneg, rosLog, countLevel, List.filter_append]

/-- C7: when the poll of `ros::ok()` after the iterations `pre` reports false, `main` returns
exit code `0`; exactly `pre.length` messages and transforms have been published and the counter
holds the 32-bit value of `pre.length`; exactly one fatal-level event has been logged; and the
result does not depend on what the environment holds after that poll. -/
theorem shutdown_stops (argv : List String) (pre : List TickEnv) (stop : TickEnv)
    (post : List TickEnv) (hpre : ∀ e ∈ pre, e.shutdown = false)
    (hstop : stop.shutdown = true) :
    main argv (pre ++ stop :: post) = main argv (pre ++ [stop]) ∧
    ∃ s, main argv (pre ++ stop :: post) = some (0, s) ∧
      s.chatter.length = pre.length ∧ s.tf.length = pre.length ∧
      s.count = wrap32 pre.length ∧ rosOk s = false ∧
      countLevel Level.fatal s.log = 1 := by
  obtain ⟨f1, f2, _, f4, f5, f6⟩ := exitNode_fields argv pre
  refine ⟨?_, exitNode argv pre, main_stop argv pre stop post hpre hstop, ?_, ?_, f2, f1, f6⟩
  · rw [main_stop argv pre stop post hpre hstop, main_stop argv pre stop [] hpre hstop]
  · rw [f4]; simp
  · rw [f5]; simp

/-- Witness of C7: one iteration, the shutdown seen at the second poll, and an environment that
goes on after it. -/
theorem shutdown_stops_witness :
    main ["talker"] ([quietTick] ++ stopTick :: [quietTick, quietTick])
      = main ["talker"] ([quietTick] ++ [stopTick]) ∧
    ∃ s, main ["talker"] ([quietTick] ++ stopTick :: [quietTick, quietTick]) = some (0, s) ∧
      s.chatter.length = [quietTick].length ∧ s.tf.length = [quietTick].length ∧
      s.count = wrap32 ([quietTick].length : Nat) ∧ rosOk s = false ∧
      countLevel Level.fatal s.log = 1 :=
  shutdown_stops ["talker"] [quietTick] stopTick [quietTick, quietTick] (by decide) (by decide)

/-- C8, as stated, fails: a request with input `Hello` that reaches the node before iteration `0`
reads `stringMsg` is served only by the `ros::spinOnce()` of iteration `0`, so iteration `0`
publishes `Base string msg0`; the input shows up in iteration `1`. -/
theorem request_before_read_not_seen :
    (main ["talker"] [⟨false, 0, ["Hello"], []⟩, quietTick, stopTick]).map
      (fun r => r.2.chatter) = some ["Base string msg0", "Hello1"] := by
  decide

/-- C8, amended: the message of iteration `N` is built from the input of the last request served
by the `ros::spinOnce()` of an iteration before `N` (the initial text when there is none),
whatever requests reach the node after the `ros::spinOnce()` of iteration `N - 1`, be it
before or after iteration `N` reads `stringMsg`; those requests are served by the
`ros::spinOnce()` of iteration `N` and are visible to the read of iteration `N + 1`. -/
theorem request_seen_after_spin (argv : List String) (pre : List TickEnv) (e next : TickEnv)
    (post : List TickEnv) (stop : TickEnv) (rest : List TickEnv)
    (hpre : ∀ x ∈ pre, x.shutdown = false) (he : e.shutdown = false)
    (hnext : next.shutdown = false) (hpost : ∀ x ∈ post, x.shutdown = false)
    (hstop : stop.shutdown = true) :
    ∃ s, main argv ((pre ++ e :: next :: post) ++ stop :: rest) = some (0, s) ∧
      s.chatter.get? pre.length
        = some (lastInput (served pre) ++ showInt (wrap32 pre.length)) ∧
      s.chatter.get? (pre.length + 1)
        = some (lastInput (served pre ++ (e.arrivedBeforeRead ++ e.arrivedAfterRead))
            ++ showInt (wrap32 (pre.length + 1 : Nat))) := by
  have hall : ∀ x ∈ pre ++ e :: next :: post, x.shutdown = false := by
    intro x hx
    rcases List.mem_append.mp hx with hx | hx
    · exact hpre x hx
    · rcases List.mem_cons.mp hx with hx | hx
      · rw [hx]; exact he
      · rcases List.mem_cons.mp hx with hx | hx
        · rw [hx]; exact hnext
        · exact hpost x hx
  have h0 := exitNode_chatter_get argv (pre ++ e :: next :: post) pre.length (by simp)
  have h1 := exitNode_chatter_get argv (pre ++ e :: next :: post) (pre.length + 1) (by simp)
  have t1 : List.take (pre.length + 1) (pre ++ e :: next :: post) = pre ++ [e] := by
    have : pre ++ e :: next :: post = (pre ++ [e]) ++ next :: post := by simp
    rw [this]
    exact List.take_left' (by simp)
  rw [List.take_left] at h0
  rw [t1, served_snoc] at h1
  exact ⟨_, main_stop argv _ stop rest hall hstop, h0, h1⟩

/-- Witness of C8 (amended): the request `Hello` reaches the node before iteration `0` reads. -/
theorem request_seen_after_spin_witness :
    ∃ s, main ["talker"] (([] ++ (⟨false, 0, ["Hello"], []⟩ : TickEnv) :: quietTick :: [])
        ++ stopTick :: []) = some (0, s) ∧
      s.chatter.get? ([] : List TickEnv).length
        = some (lastInput (served []) ++ showInt (wrap32 (([] : List TickEnv).length : Nat))) ∧
      s.chatter.get? (([] : List TickEnv).length + 1)
        = some (lastInput (served [] ++
              ((⟨false, 0, ["Hello"], []⟩ : TickEnv).arrivedBeforeRead
                ++ (⟨false, 0, ["Hello"], []⟩ : TickEnv).arrivedAfterRead))
            ++ showInt (wrap32 ((([] : List TickEnv).length + 1 : Nat) : Int))) :=
  request_seen_after_spin ["talker"] [] ⟨false, 0, ["Hello"], []⟩ quietTick [] stopTick []
    (by decide) (by decide) (by decide) (by decide) (by decide)

theorem string_append_left_cancel (a b c : String) (h : a ++ b = a ++ c) : b = c := by
  have hd : (a ++ b).data = (a ++ c).data := by rw [h]
  rw [String.data_append, String.data_append] at hd
  exact String.ext (List.append_cancel_left hd)

theorem PI_lt_pi : ((PI : ℚ) : ℝ) < Real.pi := by
  have h := Real.pi_gt_d2
  unfold PI
  push_cast
  norm_num at h ⊢
  exact h

/-- C9, as stated, fails: the roll and pitch handed to `setRPY` are the macro `PI = 3.14` and
`PI / 2`, which are smaller than the real numbers π and π/2. -/
theorem roll_is_not_pi :
    (main ["talker"] [quietTick, stopTick]).map (fun r => r.2.tf.map (fun t => t.rotation))
      = some [⟨PI, PI / 2, 2⟩] ∧
    ((PI : ℚ) : ℝ) ≠ Real.pi ∧ ((PI / 2 : ℚ) : ℝ) ≠ Real.pi / 2 := by
  have h := main_stop ["talker"] [quietTick] stopTick [] (by decide) rfl
  simp only [List.cons_append, List.nil_append] at h
  refine ⟨?_, ne_of_lt PI_lt_pi, ?_⟩
  · rw [h]
    simp only [Option.map_some', (exitNode_fields ["talker"] [quietTick]).2.2.2.2.1]
    simp only [List.map, sentTransform, PI]
    norm_num
  · have hlt := PI_lt_pi
    push_cast
    intro heq
    linarith

/-- C9, amended: in every run, every iteration sends the transform with translation `(1, 2, 3)`,
with an orientation built from roll `3.14`, pitch `1.57` (the macro `PI` and `PI / 2`) and yaw
`2`, with parent frame `world` and child frame `talk`, stamped with the clock of the iteration;
nothing else is sent. -/
theorem transform_constants (argv : List String) (pre : List TickEnv) (stop : TickEnv)
    (post : List TickEnv) (hpre : ∀ e ∈ pre, e.shutdown = false)
    (hstop : stop.shutdown = true) :
    ∃ s, main argv (pre ++ stop :: post) = some (0, s) ∧
      s.tf = pre.map (fun e =>
        { origin := ⟨1, 2, 3⟩, rotation := ⟨3.14, 1.57, 2⟩, stamp := e.now,
          frame_id := "world", child_frame_id := "talk" }) :=
  ⟨exitNode argv pre, main_stop argv pre stop post hpre hstop,
    (exitNode_fields argv pre).2.2.2.2.1⟩

/-- Witness of C9 (amended): a run of two iterations started with the rate argument `5`. -/
theorem transform_constants_witness :
    ∃ s, main ["talker", "5"] ([quietTick, ⟨false, 7, ["Hello"], []⟩] ++ stopTick :: [])
        = some (0, s) ∧
      s.tf = [quietTick, ⟨false, 7, ["Hello"], []⟩].map (fun e =>
        { origin := ⟨1, 2, 3⟩, rotation := ⟨3.14, 1.57, 2⟩, stamp := e.now,
          frame_id := "world", child_frame_id := "talk" }) :=
  transform_constants ["talker", "5"] [quietTick, ⟨false, 7, ["Hello"], []⟩] stopTick []
    (by decide) (by decide)

/-- Distinct integers are written differently by `operator<<`. -/
theorem showInt_injective (a b : Int) (h : showInt a = showInt b) : a = b := by
  have hminus : ∀ (x : String) (n : Nat), "-" ++ x ≠ Nat.repr n := by
    intro x n heq
    obtain ⟨h1, h2, _⟩ := toDigitsCore_spec (n + 1) n (by omega)
    have hdata : (Nat.repr n).data = Nat.toDigitsCore 10 (n + 1) n [] := by
      simp [Nat.repr, Nat.toDigits, List.asString]
    have hd := congrArg String.data heq
    have hm : ("-" : String).data = ['-'] := rfl
    rw [String.data_append, hdata, hm] at hd
    cases hl : Nat.toDigitsCore 10 (n + 1) n [] with
    | nil => exact absurd hl h2
    | cons c t =>
      rw [hl] at hd h1
      have hc := h1 c (List.mem_cons_self _ _)
      rw [← (List.cons.inj hd).1] at hc
      exact absurd hc (by decide)
  unfold showInt at h
  split_ifs at h with ha hb hb
  · have := repr_injective _ _ (string_append_left_cancel _ _ _ h)
    omega
  · exact absurd h (hminus _ _)
  · exact absurd h.symm (hminus _ _)
  · have := repr_injective _ _ h
    omega

/-- C10 fails on the code: the comment above `count` says it is used to create a unique string
for each message, yet when iteration `0` serves the request `x1` and iteration `1` serves the
request `x`, the distinct iterations `1` and `11` both publish `x11`. -/
theorem two_ticks_same_message :
    (main ["talker"] ([⟨false, 0, [], ["x1"]⟩, ⟨false, 0, [], ["x"]⟩]
        ++ List.replicate 10 quietTick ++ [stopTick])).map
      (fun r => (r.2.chatter.get? 1, r.2.chatter.get? 11))
      = some (some "x11", some "x11") := by
  decide

/-- Two distinct iterations `i` and `j`, both below `2^32`, that read the same text (in
particular when no request is served between them) publish different messages: the counter
separates the messages as long as the text does not change. -/
theorem same_text_distinct_messages (argv : List String) (pre : List TickEnv) (stop : TickEnv)
    (post : List TickEnv) (i j : Nat) (hpre : ∀ e ∈ pre, e.shutdown = false)
    (hstop : stop.shutdown = true) (hi : i < pre.length) (hj : j < pre.length) (hij : i ≠ j)
    (hi32 : i < 2 ^ 32) (hj32 : j < 2 ^ 32)
    (htext : lastInput (served (pre.take i)) = lastInput (served (pre.take j))) :
    ∃ s, main argv (pre ++ stop :: post) = some (0, s) ∧
      s.chatter.get? i ≠ s.chatter.get? j := by
  refine ⟨exitNode argv pre, main_stop argv pre stop post hpre hstop, ?_⟩
  rw [exitNode_chatter_get argv pre i hi, exitNode_chatter_get argv pre j hj, htext]
  intro h
  have h2 := showInt_injective _ _ (string_append_left_cancel _ _ _ (Option.some.inj h))
  unfold wrap32 at h2
  omega

end Talker
